import Mathlib

/-!
Shallow embedding of the tic-tac-toe engine in src/python/JogoDaVelha.py.
Board cells are Python one-character strings, modelled as Char; the nine
dictionary keys '1'..'9' are fixed fields of a structure, listed in the
insertion order of the source dictionary ('7','8','9','4','5','6','1','2','3').
DOM updates, sounds and timers are external effects with no game-logic
content and are not modelled; every state-changing method is embedded as a
pure function from the old state to the new one.
-/

/-- Tabuleiro: the nine-cell board dictionary of JogoDaVelha.__init__
(src/python/JogoDaVelha.py lines 53-57).  Field order follows the
insertion order of the Python dict, which fixes both the values() order
and the keys() iteration order used elsewhere in the source. -/
structure Board where
  c7 : Char
  c8 : Char
  c9 : Char
  c4 : Char
  c5 : Char
  c6 : Char
  c1 : Char
  c2 : Char
  c3 : Char
deriving DecidableEq, Repr

/-- Keys of the board dictionary in Python insertion order
(tabuleiro.keys() iterates in this order). -/
def Board.chaves : List Char := ['7', '8', '9', '4', '5', '6', '1', '2', '3']

/-- Values of the board dictionary in Python insertion order
(list(tabuleiro.values())). -/
def Board.values (b : Board) : List Char :=
  [b.c7, b.c8, b.c9, b.c4, b.c5, b.c6, b.c1, b.c2, b.c3]

/-- Dictionary lookup tabuleiro.get(posicao): some cell for the nine known
keys, none otherwise (models the membership test posicao in tabuleiro.keys()
together with the subsequent indexing). -/
def Board.get? (b : Board) (p : Char) : Option Char :=
  if p = '7' then some b.c7 else if p = '8' then some b.c8
  else if p = '9' then some b.c9 else if p = '4' then some b.c4
  else if p = '5' then some b.c5 else if p = '6' then some b.c6
  else if p = '1' then some b.c1 else if p = '2' then some b.c2
  else if p = '3' then some b.c3 else none

/-- Dictionary indexing tabuleiro[posicao] for a known key.  The source only
indexes with keys drawn from the board dictionary or from the fixed winning
table, so the default branch (a KeyError in Python) is never exercised. -/
def Board.get (b : Board) (p : Char) : Char :=
  if p = '7' then b.c7 else if p = '8' then b.c8
  else if p = '9' then b.c9 else if p = '4' then b.c4
  else if p = '5' then b.c5 else if p = '6' then b.c6
  else if p = '1' then b.c1 else if p = '2' then b.c2
  else if p = '3' then b.c3 else ' '

/-- Dictionary assignment tabuleiro[posicao] = v; a position outside the nine
keys leaves the board unchanged (the source guards every assignment with
verificar_jogada, so that branch is never exercised). -/
def Board.set (b : Board) (p : Char) (v : Char) : Board :=
  if p = '7' then { b with c7 := v } else if p = '8' then { b with c8 := v }
  else if p = '9' then { b with c9 := v } else if p = '4' then { b with c4 := v }
  else if p = '5' then { b with c5 := v } else if p = '6' then { b with c6 := v }
  else if p = '1' then { b with c1 := v } else if p = '2' then { b with c2 := v }
  else if p = '3' then { b with c3 := v } else b

/-- Board with every cell blank, as built by __init__ and by reiniciar. -/
def tabuleiro_inicial : Board := ⟨' ', ' ', ' ', ' ', ' ', ' ', ' ', ' ', ' '⟩

/-- Result of verificar_tabuleiro (src/python/JogoDaVelha.py lines 154-182).
The Python method returns (value, triple) for a completed line, the pair
(the string "empate", []) for a draw, and (number of blank cells, []) for a
game still in progress; the three shapes are modelled as one inductive. -/
inductive Resultado where
  | vitoria (simbolo : Char) (posicoes : List Char)
  | empate
  | emAndamento (vazias : Nat)
deriving DecidableEq, Repr

/-- GameState: the three mutable attributes of the JogoDaVelha instance
(tabuleiro, turno, jogo_ativo). -/
structure GameState where
  tabuleiro : Board
  turno : Char
  jogo_ativo : Bool
deriving DecidableEq, Repr

/-- State built by __init__ and by reiniciar: blank board, turn X, active. -/
def estado_inicial : GameState :=
  { tabuleiro := tabuleiro_inicial, turno := 'X', jogo_ativo := true }

/-- JogoDaVelha.verificar_jogada (lines 147-152): a move is valid when the
position is a known key whose cell is blank. -/
def verificar_jogada (b : Board) (jogada : Char) : Bool :=
  b.get? jogada == some ' '

/-- JogoDaVelha.verificar_tabuleiro (lines 154-182): the eight winning
conditions are tested in source order, three verticals, then three
horizontals, then two diagonals; the first condition that holds returns the
common value and its triple; otherwise a draw when no blank cell remains,
else the count of blank cells. -/
def verificar_tabuleiro (b : Board) : Resultado :=
  if b.c7 = b.c4 ∧ b.c4 = b.c1 ∧ b.c1 ≠ ' ' then .vitoria b.c7 ['7', '4', '1']
  else if b.c8 = b.c5 ∧ b.c5 = b.c2 ∧ b.c2 ≠ ' ' then .vitoria b.c8 ['8', '5', '2']
  else if b.c9 = b.c6 ∧ b.c6 = b.c3 ∧ b.c3 ≠ ' ' then .vitoria b.c9 ['9', '6', '3']
  else if b.c7 = b.c8 ∧ b.c8 = b.c9 ∧ b.c9 ≠ ' ' then .vitoria b.c7 ['7', '8', '9']
  else if b.c4 = b.c5 ∧ b.c5 = b.c6 ∧ b.c6 ≠ ' ' then .vitoria b.c4 ['4', '5', '6']
  else if b.c1 = b.c2 ∧ b.c2 = b.c3 ∧ b.c3 ≠ ' ' then .vitoria b.c1 ['1', '2', '3']
  else if b.c7 = b.c5 ∧ b.c5 = b.c3 ∧ b.c3 ≠ ' ' then .vitoria b.c7 ['7', '5', '3']
  else if b.c1 = b.c5 ∧ b.c5 = b.c9 ∧ b.c9 ≠ ' ' then .vitoria b.c1 ['1', '5', '9']
  else if b.values.count ' ' = 0 then .empate
  else .emAndamento (b.values.count ' ')

/-- JogoDaVelha.fazer_jogada (lines 184-252), restricted to its state
changes: inactive games and invalid moves return unchanged; otherwise the
cell receives the turn symbol, the board is classified, a win by 'X' or 'O'
or a draw deactivates the game with the turn untouched, and any other
classification toggles the turn. -/
def fazer_jogada (s : GameState) (posicao : Char) : GameState :=
  if s.jogo_ativo = false then s
  else if verificar_jogada s.tabuleiro posicao = false then s
  else
    let tab := s.tabuleiro.set posicao s.turno
    match verificar_tabuleiro tab with
    | .vitoria estado _ =>
      if estado = 'X' ∨ estado = 'O' then
        { tabuleiro := tab, turno := s.turno, jogo_ativo := false }
      else
        { tabuleiro := tab, turno := if s.turno = 'O' then 'X' else 'O',
          jogo_ativo := s.jogo_ativo }
    | .empate => { tabuleiro := tab, turno := s.turno, jogo_ativo := false }
    | .emAndamento _ =>
      { tabuleiro := tab, turno := if s.turno = 'O' then 'X' else 'O',
        jogo_ativo := s.jogo_ativo }

/-- JogoDaVelha.reiniciar (lines 472-488): blank board, turn X, active. -/
def reiniciar (_s : GameState) : GameState :=
  { tabuleiro := tabuleiro_inicial, turno := 'X', jogo_ativo := true }

/-- obter_todas_sequencias_vencedoras (lines 533-550): the winning table of
the advisor helpers, listed in its source order, three horizontals, then
three verticals, then two diagonals. -/
def obter_todas_sequencias_vencedoras : List (List Char) :=
  [['7', '8', '9'], ['4', '5', '6'], ['1', '2', '3'],
   ['7', '4', '1'], ['8', '5', '2'], ['9', '6', '3'],
   ['7', '5', '3'], ['1', '5', '9']]

/-- Modelled from the spec: the eight winning triples in the priority order
that the spec states for the win detector, three verticals, then three
horizontals, then two diagonals. -/
def tabela_deteccao : List (List Char) :=
  [['7', '4', '1'], ['8', '5', '2'], ['9', '6', '3'],
   ['7', '8', '9'], ['4', '5', '6'], ['1', '2', '3'],
   ['7', '5', '3'], ['1', '5', '9']]

/-- Modelled from the spec: a triple whose three cells hold the same
non-blank value. -/
def linha_uniforme (b : Board) (seq : List Char) : Bool :=
  match seq with
  | [p, q, r] => decide (b.get p = b.get q ∧ b.get q = b.get r ∧ b.get r ≠ ' ')
  | _ => false

/-- Modelled from the spec: scan a table of triples in order and return a
win for the first uniform triple, else a draw when no blank cell remains,
else the count of blank cells. -/
def avaliar_aux (b : Board) : List (List Char) → Resultado
  | [] =>
    if b.values.count ' ' = 0 then .empate
    else .emAndamento (b.values.count ' ')
  | seq :: resto =>
    if linha_uniforme b seq then .vitoria (b.get (seq.headD ' ')) seq
    else avaliar_aux b resto

/-- Modelled from the spec: the outcome classifier as a first-match scan of
an explicit ordered table. -/
def avaliar_com_tabela (tabela : List (List Char)) (b : Board) : Resultado :=
  avaliar_aux b tabela

/-- analisar_posicoes_criticas (lines 600-624): for each sequence of the
table holding exactly two cells of the symbol and one blank, collect the
blank position, skipping duplicates, preserving table order. -/
def analisar_posicoes_criticas (b : Board) (simbolo : Char) : List Char :=
  obter_todas_sequencias_vencedoras.foldl
    (fun acc seq =>
      let valores := seq.map b.get
      if valores.count simbolo = 2 ∧ valores.count ' ' = 1 then
        seq.foldl
          (fun acc2 pos =>
            if b.get pos = ' ' ∧ pos ∉ acc2 then acc2 ++ [pos] else acc2)
          acc
      else acc)
    []

/-- calcular_heuristica_tabuleiro (lines 626-659): sum over the table, a
sequence containing an opposing cell scores nothing, three own cells score
100, two own and one blank score 10, one own and two blank score 1. -/
def calcular_heuristica_tabuleiro (b : Board) (simbolo : Char) : Nat :=
  obter_todas_sequencias_vencedoras.foldl
    (fun pontuacao seq =>
      let valores := seq.map b.get
      let count_simbolo := valores.count simbolo
      let count_vazio := valores.count ' '
      let count_oponente := 3 - count_simbolo - count_vazio
      if count_oponente > 0 then pontuacao
      else if count_simbolo = 3 then pontuacao + 100
      else if count_simbolo = 2 ∧ count_vazio = 1 then pontuacao + 10
      else if count_simbolo = 1 ∧ count_vazio = 2 then pontuacao + 1
      else pontuacao)
    0

/-- obter_melhor_jogada (lines 661-700): first own critical position, else
first critical position of the opponent, else none when no blank remains,
else the centre, else the first blank corner among 1,3,7,9, else the first
blank position in key order. -/
def obter_melhor_jogada (tabuleiro : Board) (simbolo : Char) : Option Char :=
  match analisar_posicoes_criticas tabuleiro simbolo with
  | p :: _ => some p
  | [] =>
    match analisar_posicoes_criticas tabuleiro
        (if simbolo = 'X' then 'O' else 'X') with
    | p :: _ => some p
    | [] =>
      let posicoes_disponiveis :=
        Board.chaves.filter (fun pos => tabuleiro.get pos == ' ')
      if posicoes_disponiveis.isEmpty then none
      else if posicoes_disponiveis.contains '5' then some '5'
      else
        match (['1', '3', '7', '9'] : List Char).filter
            (fun pos => posicoes_disponiveis.contains pos) with
        | c :: _ => some c
        | [] => posicoes_disponiveis.head?

/-- Statistics record of obter_estatisticas_tabuleiro (lines 567-598).  The
three percentage fields of the source are floating-point display values
derived from these counts and are not modelled. -/
structure Estatisticas where
  total : Nat
  vazias : Nat
  x : Nat
  o : Nat
  preenchidas : Nat
deriving DecidableEq, Repr

/-- obter_estatisticas_tabuleiro (lines 567-598), integer fields. -/
def obter_estatisticas_tabuleiro (b : Board) : Estatisticas :=
  let total_celulas := 9
  let celulas_vazias := b.values.count ' '
  let celulas_x := b.values.count 'X'
  let celulas_o := b.values.count 'O'
  { total := total_celulas, vazias := celulas_vazias, x := celulas_x,
    o := celulas_o, preenchidas := total_celulas - celulas_vazias }

/-- validar_integridade_tabuleiro (lines 702-728): reject when the count of
'X' minus the count of 'O' is negative or above one, else reject on the
first cell outside the three valid characters, else accept. -/
def validar_integridade_tabuleiro (b : Board) : Bool × String :=
  let valores := b.values
  let count_x := valores.count 'X'
  let count_o := valores.count 'O'
  let diferenca : Int := (count_x : Int) - (count_o : Int)
  if diferenca < 0 ∨ diferenca > 1 then
    (false, "Estado invalido: X=" ++ toString count_x ++ ", O=" ++ toString count_o)
  else
    match valores.find? (fun v => !(v == 'X' || v == 'O' || v == ' ')) with
    | some v => (false, "Caractere invalido encontrado: " ++ toString v)
    | none => (true, "Tabuleiro valido")

/-- Serialised record of exportar_estado_jogo (lines 752-768). -/
structure EstadoJogo where
  tabuleiro : Board
  turno : Char
  jogo_ativo : Bool
  estatisticas : Estatisticas
deriving DecidableEq, Repr

/-- exportar_estado_jogo (lines 752-768): a pure copy of the three state
attributes plus derived statistics. -/
def exportar_estado_jogo (jogo : GameState) : EstadoJogo :=
  { tabuleiro := jogo.tabuleiro, turno := jogo.turno,
    jogo_ativo := jogo.jogo_ativo,
    estatisticas := obter_estatisticas_tabuleiro jogo.tabuleiro }

/-- importar_estado_jogo (lines 770-801): validate the record board first;
on failure the prior state is returned untouched with False, on success the
three attributes of the record replace those of the state with True. -/
def importar_estado_jogo (jogo : GameState) (estado : EstadoJogo) :
    GameState × Bool :=
  if (validar_integridade_tabuleiro estado.tabuleiro).1 = false then
    (jogo, false)
  else
    ({ tabuleiro := estado.tabuleiro, turno := estado.turno,
       jogo_ativo := estado.jogo_ativo }, true)

/-- Cell bounding rectangle consumed by criar_linha_vitoria (lines 285-300),
already translated to board-relative coordinates; the browser supplies
these values.  Coordinates are modelled as rationals, which carry the exact
comparison and averaging arithmetic of the source. -/
structure Rect where
  left : ℚ
  top : ℚ
  right : ℚ
  bottom : ℚ
deriving DecidableEq, Repr

/-- Horizontal centre of a cell rectangle, (left + right) / 2. -/
def Rect.centerX (r : Rect) : ℚ := (r.left + r.right) / 2

/-- Vertical centre of a cell rectangle, (top + bottom) / 2. -/
def Rect.centerY (r : Rect) : ℚ := (r.top + r.bottom) / 2

/-- Absolute value as the Python builtin abs on the rational model. -/
def valor_absoluto (q : ℚ) : ℚ := if q < 0 then -q else q

/-- Stable insertion used by the sort model: an element is placed before
the first list entry it compares at-or-below, so equal keys keep their
original relative order, as the stable Python sorted builtin does. -/
def inserir {α : Type} (le : α → α → Bool) (x : α) : List α → List α
  | [] => [x]
  | y :: ys => if le x y then x :: y :: ys else y :: inserir le x ys

/-- Stable sort modelling the Python sorted builtin. -/
def ordenar {α : Type} (le : α → α → Bool) : List α → List α
  | [] => []
  | x :: xs => inserir le x (ordenar le xs)

/-- Lexicographic key (top, left) of the rect sort in criar_linha_vitoria
(line 309). -/
def rect_le (a b : Rect) : Bool :=
  decide (a.top < b.top ∨ (a.top = b.top ∧ a.left ≤ b.left))

/-- Integer value of a position character, the Python int(p). -/
def digito (p : Char) : Nat := p.toNat - 48

/-- Line classes assigned by criar_linha_vitoria: the source CSS class
names diagonal-1, diagonal-2, horizontal and vertical. -/
inductive TipoLinha where
  | diagonal1
  | diagonal2
  | horizontal
  | vertical
deriving DecidableEq, Repr

/-- Classification core of JogoDaVelha.criar_linha_vitoria (lines 319-399):
the triple is diagonal exactly when its sorted integer positions read 357
or 159, checked before any geometry; otherwise the three rects sorted by
(top, left) are tested for horizontal (adjacent centre-Y differences below
5) and then vertical (adjacent centre-X differences below 5); failing both
is the defensive error branch, which draws nothing.  The descriptor
numbers (pixel placement, diagonal length and angle) are display output
computed in floating point and are not modelled; none is produced exactly
when this classification returns none.  The early guard of the source also
returns nothing when fewer or more than three positions or cells arrive. -/
def classificar_linha_vitoria (posicoes : List Char) (rects : List Rect) :
    Option TipoLinha :=
  if posicoes.length ≠ 3 then none
  else if rects.length ≠ 3 then none
  else
    let rects_sorted := ordenar rect_le rects
    let sorted_pos := ordenar (fun a b => decide (a ≤ b)) (posicoes.map digito)
    if sorted_pos = [3, 5, 7] then some TipoLinha.diagonal1
    else if sorted_pos = [1, 5, 9] then some TipoLinha.diagonal2
    else
      match rects_sorted with
      | [r0, r1, r2] =>
        if valor_absoluto (r0.centerY - r1.centerY) < 5 ∧
            valor_absoluto (r1.centerY - r2.centerY) < 5 then
          some TipoLinha.horizontal
        else if valor_absoluto (r0.centerX - r1.centerX) < 5 ∧
            valor_absoluto (r1.centerX - r2.centerX) < 5 then
          some TipoLinha.vertical
        else none
      | _ => none

/-- Modelled from the spec: three values mutually within five units of one
another, the reading of the tolerance test used by the specification. -/
def mutuamente_proximos (a b c : ℚ) : Prop :=
  valor_absoluto (a - b) < 5 ∧ valor_absoluto (b - c) < 5 ∧
    valor_absoluto (a - c) < 5

/-- States reachable from the fresh state through the public operations
fazer_jogada, reiniciar and importar_estado_jogo. -/
inductive Alcancavel : GameState → Prop
  | inicial : Alcancavel estado_inicial
  | jogada (s : GameState) (p : Char) :
      Alcancavel s → Alcancavel (fazer_jogada s p)
  | reiniciada (s : GameState) : Alcancavel s → Alcancavel (reiniciar s)
  | importada (s : GameState) (estado : EstadoJogo) :
      Alcancavel s → Alcancavel (importar_estado_jogo s estado).1

/-- States reachable from the fresh state through fazer_jogada and
reiniciar alone, without state import. -/
inductive AlcancavelNucleo : GameState → Prop
  | inicial : AlcancavelNucleo estado_inicial
  | jogada (s : GameState) (p : Char) :
      AlcancavelNucleo s → AlcancavelNucleo (fazer_jogada s p)
  | reiniciada (s : GameState) : AlcancavelNucleo s → AlcancavelNucleo (reiniciar s)

/-- Signed difference between the count of 'X' cells and the count of 'O'
cells of a board. -/
def contagem_diferenca (b : Board) : Int :=
  (b.values.count 'X' : Int) - (b.values.count 'O' : Int)

/-- Inductive invariant of the core game loop: the count difference stays
zero or one, an active state carries turn 'X' exactly at difference zero
and turn 'O' exactly at difference one, and every cell is blank, 'X' or
'O'. -/
def InvNucleo (s : GameState) : Prop :=
  (contagem_diferenca s.tabuleiro = 0 ∨ contagem_diferenca s.tabuleiro = 1) ∧
  (s.jogo_ativo = true →
    (s.turno = 'X' ∧ contagem_diferenca s.tabuleiro = 0) ∨
    (s.turno = 'O' ∧ contagem_diferenca s.tabuleiro = 1)) ∧
  (∀ x ∈ s.tabuleiro.values, x = 'X' ∨ x = 'O' ∨ x = ' ')

theorem chaves_cases (p : Char) (hp : p ∈ Board.chaves) :
    p = '7' ∨ p = '8' ∨ p = '9' ∨ p = '4' ∨ p = '5' ∨ p = '6' ∨
    p = '1' ∨ p = '2' ∨ p = '3' := by
  simpa [Board.chaves] using hp

theorem chaves_of_get? (b : Board) (p w : Char) (h : b.get? p = some w) :
    p ∈ Board.chaves := by
  unfold Board.get? at h
  split_ifs at h <;> simp_all [Board.chaves]

theorem get?_eq_some_blank (b : Board) (p : Char) (h : b.get? p = some ' ') :
    (p = '7' ∧ b.c7 = ' ') ∨ (p = '8' ∧ b.c8 = ' ') ∨ (p = '9' ∧ b.c9 = ' ') ∨
    (p = '4' ∧ b.c4 = ' ') ∨ (p = '5' ∧ b.c5 = ' ') ∨ (p = '6' ∧ b.c6 = ' ') ∨
    (p = '1' ∧ b.c1 = ' ') ∨ (p = '2' ∧ b.c2 = ' ') ∨ (p = '3' ∧ b.c3 = ' ') := by
  unfold Board.get? at h
  split_ifs at h <;> simp_all

theorem get_set (b : Board) (t : Char) (p q : Char)
    (hp : p ∈ Board.chaves) (hq : q ∈ Board.chaves) :
    (b.set p t).get q = if q = p then t else b.get q := by
  rcases chaves_cases p hp with rfl|rfl|rfl|rfl|rfl|rfl|rfl|rfl|rfl <;>
    rcases chaves_cases q hq with rfl|rfl|rfl|rfl|rfl|rfl|rfl|rfl|rfl <;> rfl

theorem Board.set_c7 (b : Board) (v : Char) : b.set '7' v = { b with c7 := v } := rfl

theorem Board.set_c8 (b : Board) (v : Char) : b.set '8' v = { b with c8 := v } := rfl

theorem Board.set_c9 (b : Board) (v : Char) : b.set '9' v = { b with c9 := v } := rfl

theorem Board.set_c4 (b : Board) (v : Char) : b.set '4' v = { b with c4 := v } := rfl

theorem Board.set_c5 (b : Board) (v : Char) : b.set '5' v = { b with c5 := v } := rfl

theorem Board.set_c6 (b : Board) (v : Char) : b.set '6' v = { b with c6 := v } := rfl

theorem Board.set_c1 (b : Board) (v : Char) : b.set '1' v = { b with c1 := v } := rfl

theorem Board.set_c2 (b : Board) (v : Char) : b.set '2' v = { b with c2 := v } := rfl

theorem Board.set_c3 (b : Board) (v : Char) : b.set '3' v = { b with c3 := v } := rfl

theorem set_fora (b : Board) (p t : Char) (hp : p ∉ Board.chaves) :
    b.set p t = b := by
  unfold Board.set
  split_ifs with h1 h2 h3 h4 h5 h6 h7 h8 h9
  · exact absurd (by simp [Board.chaves, h1]) hp
  · exact absurd (by simp [Board.chaves, h2]) hp
  · exact absurd (by simp [Board.chaves, h3]) hp
  · exact absurd (by simp [Board.chaves, h4]) hp
  · exact absurd (by simp [Board.chaves, h5]) hp
  · exact absurd (by simp [Board.chaves, h6]) hp
  · exact absurd (by simp [Board.chaves, h7]) hp
  · exact absurd (by simp [Board.chaves, h8]) hp
  · exact absurd (by simp [Board.chaves, h9]) hp
  · rfl

theorem count_replace (l1 l2 : List Char) (t c : Char) (hc : c ≠ ' ') :
    (l1 ++ t :: l2).count c =
      (l1 ++ ' ' :: l2).count c + (if c = t then 1 else 0) := by
  simp only [List.count_append, List.count_cons, beq_iff_eq]
  have h'' : ¬ (' ' = c) := fun hh => hc hh.symm
  by_cases h : c = t
  · subst h
    simp [h'']
    omega
  · have h' : ¬ (t = c) := fun hh => h hh.symm
    simp [h', h'', h]

theorem count_set_blank (b : Board) (p t c : Char) (hp : b.get? p = some ' ')
    (hc : c ≠ ' ') :
    ((b.set p t).values).count c =
      (b.values).count c + (if c = t then 1 else 0) := by
  rcases get?_eq_some_blank b p hp with
    ⟨hpp, hcell⟩ | ⟨hpp, hcell⟩ | ⟨hpp, hcell⟩ | ⟨hpp, hcell⟩ | ⟨hpp, hcell⟩ |
    ⟨hpp, hcell⟩ | ⟨hpp, hcell⟩ | ⟨hpp, hcell⟩ | ⟨hpp, hcell⟩ <;> subst hpp
  · have h1 : (b.set '7' t).values =
        [] ++ t :: [b.c8, b.c9, b.c4, b.c5, b.c6, b.c1, b.c2, b.c3] := rfl
    have h2 : b.values =
        [] ++ ' ' :: [b.c8, b.c9, b.c4, b.c5, b.c6, b.c1, b.c2, b.c3] := by
      simp [Board.values, hcell]
    rw [h1, h2, count_replace _ _ _ _ hc]
  · have h1 : (b.set '8' t).values =
        [b.c7] ++ t :: [b.c9, b.c4, b.c5, b.c6, b.c1, b.c2, b.c3] := rfl
    have h2 : b.values =
        [b.c7] ++ ' ' :: [b.c9, b.c4, b.c5, b.c6, b.c1, b.c2, b.c3] := by
      simp [Board.values, hcell]
    rw [h1, h2, count_replace _ _ _ _ hc]
  · have h1 : (b.set '9' t).values =
        [b.c7, b.c8] ++ t :: [b.c4, b.c5, b.c6, b.c1, b.c2, b.c3] := rfl
    have h2 : b.values =
        [b.c7, b.c8] ++ ' ' :: [b.c4, b.c5, b.c6, b.c1, b.c2, b.c3] := by
      simp [Board.values, hcell]
    rw [h1, h2, count_replace _ _ _ _ hc]
  · have h1 : (b.set '4' t).values =
        [b.c7, b.c8, b.c9] ++ t :: [b.c5, b.c6, b.c1, b.c2, b.c3] := rfl
    have h2 : b.values =
        [b.c7, b.c8, b.c9] ++ ' ' :: [b.c5, b.c6, b.c1, b.c2, b.c3] := by
      simp [Board.values, hcell]
    rw [h1, h2, count_replace _ _ _ _ hc]
  · have h1 : (b.set '5' t).values =
        [b.c7, b.c8, b.c9, b.c4] ++ t :: [b.c6, b.c1, b.c2, b.c3] := rfl
    have h2 : b.values =
        [b.c7, b.c8, b.c9, b.c4] ++ ' ' :: [b.c6, b.c1, b.c2, b.c3] := by
      simp [Board.values, hcell]
    rw [h1, h2, count_replace _ _ _ _ hc]
  · have h1 : (b.set '6' t).values =
        [b.c7, b.c8, b.c9, b.c4, b.c5] ++ t :: [b.c1, b.c2, b.c3] := rfl
    have h2 : b.values =
        [b.c7, b.c8, b.c9, b.c4, b.c5] ++ ' ' :: [b.c1, b.c2, b.c3] := by
      simp [Board.values, hcell]
    rw [h1, h2, count_replace _ _ _ _ hc]
  · have h1 : (b.set '1' t).values =
        [b.c7, b.c8, b.c9, b.c4, b.c5, b.c6] ++ t :: [b.c2, b.c3] := rfl
    have h2 : b.values =
        [b.c7, b.c8, b.c9, b.c4, b.c5, b.c6] ++ ' ' :: [b.c2, b.c3] := by
      simp [Board.values, hcell]
    rw [h1, h2, count_replace _ _ _ _ hc]
  · have h1 : (b.set '2' t).values =
        [b.c7, b.c8, b.c9, b.c4, b.c5, b.c6, b.c1] ++ t :: [b.c3] := rfl
    have h2 : b.values =
        [b.c7, b.c8, b.c9, b.c4, b.c5, b.c6, b.c1] ++ ' ' :: [b.c3] := by
      simp [Board.values, hcell]
    rw [h1, h2, count_replace _ _ _ _ hc]
  · have h1 : (b.set '3' t).values =
        [b.c7, b.c8, b.c9, b.c4, b.c5, b.c6, b.c1, b.c2] ++ t :: [] := rfl
    have h2 : b.values =
        [b.c7, b.c8, b.c9, b.c4, b.c5, b.c6, b.c1, b.c2] ++ ' ' :: [] := by
      simp [Board.values, hcell]
    rw [h1, h2, count_replace _ _ _ _ hc]

theorem mem_values_set (b : Board) (p t x : Char)
    (hx : x ∈ (b.set p t).values) : x = t ∨ x ∈ b.values := by
  by_cases hp : p ∈ Board.chaves
  · rcases chaves_cases p hp with rfl|rfl|rfl|rfl|rfl|rfl|rfl|rfl|rfl
    · rw [Board.set_c7] at hx
      simp only [Board.values, List.mem_cons, List.not_mem_nil, or_false] at hx ⊢
      rcases hx with h|h|h|h|h|h|h|h|h <;> simp [h]
    · rw [Board.set_c8] at hx
      simp only [Board.values, List.mem_cons, List.not_mem_nil, or_false] at hx ⊢
      rcases hx with h|h|h|h|h|h|h|h|h <;> simp [h]
    · rw [Board.set_c9] at hx
      simp only [Board.values, List.mem_cons, List.not_mem_nil, or_false] at hx ⊢
      rcases hx with h|h|h|h|h|h|h|h|h <;> simp [h]
    · rw [Board.set_c4] at hx
      simp only [Board.values, List.mem_cons, List.not_mem_nil, or_false] at hx ⊢
      rcases hx with h|h|h|h|h|h|h|h|h <;> simp [h]
    · rw [Board.set_c5] at hx
      simp only [Board.values, List.mem_cons, List.not_mem_nil, or_false] at hx ⊢
      rcases hx with h|h|h|h|h|h|h|h|h <;> simp [h]
    · rw [Board.set_c6] at hx
      simp only [Board.values, List.mem_cons, List.not_mem_nil, or_false] at hx ⊢
      rcases hx with h|h|h|h|h|h|h|h|h <;> simp [h]
    · rw [Board.set_c1] at hx
      simp only [Board.values, List.mem_cons, List.not_mem_nil, or_false] at hx ⊢
      rcases hx with h|h|h|h|h|h|h|h|h <;> simp [h]
    · rw [Board.set_c2] at hx
      simp only [Board.values, List.mem_cons, List.not_mem_nil, or_false] at hx ⊢
      rcases hx with h|h|h|h|h|h|h|h|h <;> simp [h]
    · rw [Board.set_c3] at hx
      simp only [Board.values, List.mem_cons, List.not_mem_nil, or_false] at hx ⊢
      rcases hx with h|h|h|h|h|h|h|h|h <;> simp [h]
  · rw [set_fora b p t hp] at hx
    exact Or.inr hx

theorem avaliar_aux_vitoria (b : Board) :
    ∀ (l : List (List Char)) (v : Char) (tr : List Char),
      avaliar_aux b l = .vitoria v tr →
      tr ∈ l ∧ linha_uniforme b tr = true ∧ v = b.get (tr.headD ' ') := by
  intro l
  induction l with
  | nil =>
    intro v tr h
    unfold avaliar_aux at h
    split_ifs at h
  | cons seq resto ih =>
    intro v tr h
    unfold avaliar_aux at h
    by_cases hu : linha_uniforme b seq
    · rw [if_pos hu] at h
      cases h
      exact ⟨List.mem_cons_self _ _, hu, rfl⟩
    · rw [if_neg hu] at h
      obtain ⟨hm, hl, hv⟩ := ih v tr h
      exact ⟨List.mem_cons_of_mem _ hm, hl, hv⟩

theorem avaliar_aux_sem_vitoria (b : Board) :
    ∀ (l : List (List Char)),
      (∀ v tr, avaliar_aux b l ≠ .vitoria v tr) →
      ∀ seq ∈ l, linha_uniforme b seq = false := by
  intro l
  induction l with
  | nil => intro _ seq hseq; cases hseq
  | cons s0 resto ih =>
    intro h seq hseq
    by_cases hu : linha_uniforme b s0
    · exfalso
      apply h (b.get (s0.headD ' ')) s0
      unfold avaliar_aux
      rw [if_pos hu]
    · rcases List.mem_cons.mp hseq with rfl | hm
      · exact Bool.not_eq_true _ ▸ (by simpa using hu)
      · apply ih _ seq hm
        intro v tr hv
        apply h v tr
        unfold avaliar_aux
        rw [if_neg hu]
        exact hv

theorem Board.get_l7 (b : Board) : b.get '7' = b.c7 := rfl

theorem Board.get_l8 (b : Board) : b.get '8' = b.c8 := rfl

theorem Board.get_l9 (b : Board) : b.get '9' = b.c9 := rfl

theorem Board.get_l4 (b : Board) : b.get '4' = b.c4 := rfl

theorem Board.get_l5 (b : Board) : b.get '5' = b.c5 := rfl

theorem Board.get_l6 (b : Board) : b.get '6' = b.c6 := rfl

theorem Board.get_l1 (b : Board) : b.get '1' = b.c1 := rfl

theorem Board.get_l2 (b : Board) : b.get '2' = b.c2 := rfl

theorem Board.get_l3 (b : Board) : b.get '3' = b.c3 := rfl

theorem verificar_eq_scan (b : Board) :
    verificar_tabuleiro b = avaliar_com_tabela tabela_deteccao b := by
  unfold verificar_tabuleiro avaliar_com_tabela tabela_deteccao
  simp only [avaliar_aux, linha_uniforme, List.headD, Board.get_l7,
    Board.get_l8, Board.get_l9, Board.get_l4, Board.get_l5, Board.get_l6,
    Board.get_l1, Board.get_l2, Board.get_l3, decide_eq_true_eq]

theorem uniforme_nova (b : Board) (p t : Char) (hpc : p ∈ Board.chaves)
    (x y z : Char) (hx : x ∈ Board.chaves) (hy : y ∈ Board.chaves)
    (hz : z ∈ Board.chaves)
    (hu : linha_uniforme (b.set p t) [x, y, z] = true)
    (hf : linha_uniforme b [x, y, z] = false) :
    (b.set p t).get x = t := by
  simp only [linha_uniforme, decide_eq_true_eq] at hu
  simp only [linha_uniforme, decide_eq_false_iff_not] at hf
  obtain ⟨h1, h2, h3⟩ := hu
  by_cases hxp : x = p
  · rw [get_set b t p x hpc hx, if_pos hxp]
  · by_cases hyp : y = p
    · rw [h1, get_set b t p y hpc hy, if_pos hyp]
    · by_cases hzp : z = p
      · rw [h1, h2, get_set b t p z hpc hz, if_pos hzp]
      · exfalso
        apply hf
        have gx := get_set b t p x hpc hx
        rw [if_neg hxp] at gx
        have gy := get_set b t p y hpc hy
        rw [if_neg hyp] at gy
        have gz := get_set b t p z hpc hz
        rw [if_neg hzp] at gz
        refine ⟨?_, ?_, ?_⟩
        · rw [← gx, ← gy]; exact h1
        · rw [← gy, ← gz]; exact h2
        · rw [← gz]; exact h3

theorem vitoria_simbolo_da_jogada (b : Board) (p t : Char)
    (hp : b.get? p = some ' ')
    (hpre : ∀ v tr, verificar_tabuleiro b ≠ .vitoria v tr) :
    ∀ v tr, verificar_tabuleiro (b.set p t) = .vitoria v tr → v = t := by
  intro v tr h
  have hpc : p ∈ Board.chaves := chaves_of_get? b p _ hp
  rw [verificar_eq_scan] at h
  obtain ⟨htr, hu, hv⟩ :=
    avaliar_aux_vitoria (b.set p t) tabela_deteccao v tr h
  have hnone : ∀ seq ∈ tabela_deteccao, linha_uniforme b seq = false := by
    apply avaliar_aux_sem_vitoria
    intro v' tr' h'
    exact hpre v' tr' (by rw [verificar_eq_scan]; exact h')
  have hmem : tr = ['7', '4', '1'] ∨ tr = ['8', '5', '2'] ∨
      tr = ['9', '6', '3'] ∨ tr = ['7', '8', '9'] ∨ tr = ['4', '5', '6'] ∨
      tr = ['1', '2', '3'] ∨ tr = ['7', '5', '3'] ∨ tr = ['1', '5', '9'] := by
    simpa [tabela_deteccao] using htr
  rcases hmem with rfl|rfl|rfl|rfl|rfl|rfl|rfl|rfl <;>
    (rw [hv]
     exact uniforme_nova b p t hpc _ _ _ (by decide) (by decide) (by decide)
       hu (hnone _ (by decide)))

theorem fazer_jogada_parada (s : GameState) (p : Char)
    (h : s.jogo_ativo = false ∨ verificar_jogada s.tabuleiro p = false) :
    fazer_jogada s p = s := by
  unfold fazer_jogada
  rcases h with h | h
  · rw [if_pos h]
  · by_cases ha : s.jogo_ativo = false
    · rw [if_pos ha]
    · rw [if_neg ha, if_pos h]

theorem fazer_jogada_eq (s : GameState) (p : Char) (ha : s.jogo_ativo = true)
    (hv : verificar_jogada s.tabuleiro p = true) :
    fazer_jogada s p =
      match verificar_tabuleiro (s.tabuleiro.set p s.turno) with
      | .vitoria estado _ =>
        if estado = 'X' ∨ estado = 'O' then
          { tabuleiro := s.tabuleiro.set p s.turno, turno := s.turno,
            jogo_ativo := false }
        else
          { tabuleiro := s.tabuleiro.set p s.turno,
            turno := if s.turno = 'O' then 'X' else 'O',
            jogo_ativo := s.jogo_ativo }
      | .empate =>
        { tabuleiro := s.tabuleiro.set p s.turno, turno := s.turno,
          jogo_ativo := false }
      | .emAndamento _ =>
        { tabuleiro := s.tabuleiro.set p s.turno,
          turno := if s.turno = 'O' then 'X' else 'O',
          jogo_ativo := s.jogo_ativo } := by
  unfold fazer_jogada
  rw [if_neg (by simp [ha]), if_neg (by simp [hv])]

theorem verificar_jogada_blank (b : Board) (p : Char)
    (h : verificar_jogada b p = true) : b.get? p = some ' ' := by
  unfold verificar_jogada at h
  exact beq_iff_eq.mp h

theorem fazer_jogada_vitoria_xo (s : GameState) (p : Char) (v : Char)
    (tr : List Char) (ha : s.jogo_ativo = true)
    (hv : verificar_jogada s.tabuleiro p = true)
    (hres : verificar_tabuleiro (s.tabuleiro.set p s.turno) = .vitoria v tr)
    (hxo : v = 'X' ∨ v = 'O') :
    fazer_jogada s p =
      { tabuleiro := s.tabuleiro.set p s.turno, turno := s.turno,
        jogo_ativo := false } := by
  unfold fazer_jogada
  rw [if_neg (by simp [ha]), if_neg (by simp [hv])]
  dsimp only
  rw [hres]
  simp [hxo]

theorem fazer_jogada_vitoria_outra (s : GameState) (p : Char) (v : Char)
    (tr : List Char) (ha : s.jogo_ativo = true)
    (hv : verificar_jogada s.tabuleiro p = true)
    (hres : verificar_tabuleiro (s.tabuleiro.set p s.turno) = .vitoria v tr)
    (hxo : ¬ (v = 'X' ∨ v = 'O')) :
    fazer_jogada s p =
      { tabuleiro := s.tabuleiro.set p s.turno,
        turno := if s.turno = 'O' then 'X' else 'O',
        jogo_ativo := s.jogo_ativo } := by
  unfold fazer_jogada
  rw [if_neg (by simp [ha]), if_neg (by simp [hv])]
  dsimp only
  rw [hres]
  simp [hxo]

theorem fazer_jogada_empate (s : GameState) (p : Char)
    (ha : s.jogo_ativo = true)
    (hv : verificar_jogada s.tabuleiro p = true)
    (hres : verificar_tabuleiro (s.tabuleiro.set p s.turno) = .empate) :
    fazer_jogada s p =
      { tabuleiro := s.tabuleiro.set p s.turno, turno := s.turno,
        jogo_ativo := false } := by
  unfold fazer_jogada
  rw [if_neg (by simp [ha]), if_neg (by simp [hv])]
  dsimp only
  rw [hres]

theorem fazer_jogada_andamento (s : GameState) (p : Char) (n : Nat)
    (ha : s.jogo_ativo = true)
    (hv : verificar_jogada s.tabuleiro p = true)
    (hres : verificar_tabuleiro (s.tabuleiro.set p s.turno) =
      .emAndamento n) :
    fazer_jogada s p =
      { tabuleiro := s.tabuleiro.set p s.turno,
        turno := if s.turno = 'O' then 'X' else 'O',
        jogo_ativo := s.jogo_ativo } := by
  unfold fazer_jogada
  rw [if_neg (by simp [ha]), if_neg (by simp [hv])]
  dsimp only
  rw [hres]

theorem count_set_blank_eq (b : Board) (p t : Char)
    (hp : b.get? p = some ' ') (ht : t ≠ ' ') :
    ((b.set p t).values).count t = (b.values).count t + 1 := by
  have h := count_set_blank b p t t hp ht
  simpa using h

theorem count_set_blank_ne (b : Board) (p t c : Char)
    (hp : b.get? p = some ' ') (hc : c ≠ ' ') (hct : c ≠ t) :
    ((b.set p t).values).count c = (b.values).count c := by
  have h := count_set_blank b p t c hp hc
  simpa [hct] using h

theorem inv_fazer_jogada (s : GameState) (p : Char) (hi : InvNucleo s) :
    InvNucleo (fazer_jogada s p) := by
  by_cases ha : s.jogo_ativo = true
  · by_cases hv : verificar_jogada s.tabuleiro p = true
    · obtain ⟨hdif, hturno, hcel⟩ := hi
      have hblank := verificar_jogada_blank s.tabuleiro p hv
      have hto := hturno ha
      have hcel' : ∀ x ∈ (s.tabuleiro.set p s.turno).values,
          x = 'X' ∨ x = 'O' ∨ x = ' ' := by
        intro x hx
        rcases mem_values_set s.tabuleiro p s.turno x hx with rfl | hx'
        · rcases hto with ⟨ht, _⟩ | ⟨ht, _⟩ <;> rw [ht] <;> simp
        · exact hcel x hx'
      have hdif' : (contagem_diferenca (s.tabuleiro.set p s.turno) = 1 ∧
            s.turno = 'X') ∨
          (contagem_diferenca (s.tabuleiro.set p s.turno) = 0 ∧
            s.turno = 'O') := by
        rcases hto with ⟨ht, hd⟩ | ⟨ht, hd⟩
        · left
          refine ⟨?_, ht⟩
          have e1 : ((s.tabuleiro.set p s.turno).values).count 'X' =
              (s.tabuleiro.values).count 'X' + 1 := by
            rw [ht]
            exact count_set_blank_eq s.tabuleiro p 'X' hblank (by decide)
          have e2 : ((s.tabuleiro.set p s.turno).values).count 'O' =
              (s.tabuleiro.values).count 'O' := by
            rw [ht]
            exact count_set_blank_ne s.tabuleiro p 'X' 'O' hblank
              (by decide) (by decide)
          unfold contagem_diferenca at hd ⊢
          rw [e1, e2]
          omega
        · right
          refine ⟨?_, ht⟩
          have e1 : ((s.tabuleiro.set p s.turno).values).count 'O' =
              (s.tabuleiro.values).count 'O' + 1 := by
            rw [ht]
            exact count_set_blank_eq s.tabuleiro p 'O' hblank (by decide)
          have e2 : ((s.tabuleiro.set p s.turno).values).count 'X' =
              (s.tabuleiro.values).count 'X' := by
            rw [ht]
            exact count_set_blank_ne s.tabuleiro p 'O' 'X' hblank
              (by decide) (by decide)
          unfold contagem_diferenca at hd ⊢
          rw [e1, e2]
          omega
      have htog : (s.turno = 'X' →
            (if s.turno = 'O' then 'X' else 'O') = 'O') ∧
          (s.turno = 'O' → (if s.turno = 'O' then 'X' else 'O') = 'X') := by
        constructor
        · intro ht
          rw [ht]
          decide
        · intro ht
          rw [ht]
          decide
      cases hres : verificar_tabuleiro (s.tabuleiro.set p s.turno) with
      | vitoria v tr =>
        by_cases hxo : v = 'X' ∨ v = 'O'
        · rw [fazer_jogada_vitoria_xo s p v tr ha hv hres hxo]
          refine ⟨?_, ?_, hcel'⟩
          · rcases hdif' with ⟨he, _⟩ | ⟨he, _⟩
            · exact Or.inr he
            · exact Or.inl he
          · intro hc
            simp at hc
        · rw [fazer_jogada_vitoria_outra s p v tr ha hv hres hxo]
          refine ⟨?_, ?_, hcel'⟩
          · rcases hdif' with ⟨he, _⟩ | ⟨he, _⟩
            · exact Or.inr he
            · exact Or.inl he
          · intro _
            rcases hdif' with ⟨he, ht⟩ | ⟨he, ht⟩
            · exact Or.inr ⟨htog.1 ht, he⟩
            · exact Or.inl ⟨htog.2 ht, he⟩
      | empate =>
        rw [fazer_jogada_empate s p ha hv hres]
        refine ⟨?_, ?_, hcel'⟩
        · rcases hdif' with ⟨he, _⟩ | ⟨he, _⟩
          · exact Or.inr he
          · exact Or.inl he
        · intro hc
          simp at hc
      | emAndamento n =>
        rw [fazer_jogada_andamento s p n ha hv hres]
        refine ⟨?_, ?_, hcel'⟩
        · rcases hdif' with ⟨he, _⟩ | ⟨he, _⟩
          · exact Or.inr he
          · exact Or.inl he
        · intro _
          rcases hdif' with ⟨he, ht⟩ | ⟨he, ht⟩
          · exact Or.inr ⟨htog.1 ht, he⟩
          · exact Or.inl ⟨htog.2 ht, he⟩
    · rw [fazer_jogada_parada s p (Or.inr (by simpa using hv))]
      exact ⟨hi.1, hi.2.1, hi.2.2⟩
  · rw [fazer_jogada_parada s p (Or.inl (by simpa using ha))]
    exact ⟨hi.1, hi.2.1, hi.2.2⟩

theorem inv_inicial : InvNucleo estado_inicial := by
  refine ⟨?_, ?_, ?_⟩ <;> decide

theorem inv_alcancavel (s : GameState) (h : AlcancavelNucleo s) :
    InvNucleo s := by
  induction h with
  | inicial => exact inv_inicial
  | jogada s p _ ih => exact inv_fazer_jogada s p ih
  | reiniciada s _ _ => exact inv_inicial

/-- C1: verificar_tabuleiro is exactly the first-match scan of the eight
winning triples in the fixed order three verticals, three horizontals, two
diagonals, returning the common value with its triple on the first uniform
non-blank triple, a draw when no blank cell remains, and otherwise the
in-progress outcome carrying the count of blank cells. -/
theorem claim1_detector_scan (b : Board) :
    verificar_tabuleiro b = avaliar_com_tabela tabela_deteccao b :=
  verificar_eq_scan b

/-- Board with the left column and the top row simultaneously complete for
'X'; the detector and an advisor-table scan disagree on which triple is
reported first. -/
def tabuleiro_duplo : Board :=
  { c7 := 'X', c8 := 'X', c9 := 'X', c4 := 'X', c5 := ' ', c6 := ' ',
    c1 := 'X', c2 := ' ', c3 := ' ' }

/-- C3 counterexample: the advisor table opens with the horizontal triple
7,8,9 while the detector scans the vertical triple 7,4,1 first; the two
tables differ as ordered lists, and on a board completing both triples the
detector reports 7,4,1 while a scan in advisor order reports 7,8,9. -/
theorem claim3_contraexemplo :
    obter_todas_sequencias_vencedoras.head? = some ['7', '8', '9'] ∧
    tabela_deteccao.head? = some ['7', '4', '1'] ∧
    obter_todas_sequencias_vencedoras ≠ tabela_deteccao ∧
    verificar_tabuleiro tabuleiro_duplo = .vitoria 'X' ['7', '4', '1'] ∧
    avaliar_com_tabela obter_todas_sequencias_vencedoras tabuleiro_duplo =
      .vitoria 'X' ['7', '8', '9'] := by
  refine ⟨rfl, rfl, by decide, by decide, by decide⟩

/-- C3 amended: the advisor table holds exactly the same eight winning
triples as the priority list the detector scans, as a permutation, but not
in the same order (the advisor lists the three horizontals first, then the
three verticals, then the two diagonals, while the detector scans the
verticals first). -/
theorem claim3_emendada :
    obter_todas_sequencias_vencedoras.Perm tabela_deteccao ∧
    ∀ b, verificar_tabuleiro b = avaliar_com_tabela tabela_deteccao b :=
  ⟨by decide, verificar_eq_scan⟩

/-- C4: a move request while the game is inactive, or whose position is
unknown or occupied (verificar_jogada false), leaves the whole state,
board, turn and active flag, unchanged. -/
theorem claim4_jogada_invalida (s : GameState) (p : Char)
    (h : s.jogo_ativo = false ∨ verificar_jogada s.tabuleiro p = false) :
    fazer_jogada s p = s :=
  fazer_jogada_parada s p h

/-- C4 witness: the unknown position '0' on the fresh state is silently
ignored. -/
theorem claim4_testemunha :
    (estado_inicial.jogo_ativo = false ∨
      verificar_jogada estado_inicial.tabuleiro '0' = false) ∧
    fazer_jogada estado_inicial '0' = estado_inicial :=
  ⟨Or.inr (by decide),
    claim4_jogada_invalida estado_inicial '0' (Or.inr (by decide))⟩

/-- Board holding a lone 'X' on cell 7: its count difference is one, so
integrity validation accepts it. -/
def tabuleiro_um_x : Board :=
  { c7 := 'X', c8 := ' ', c9 := ' ', c4 := ' ', c5 := ' ', c6 := ' ',
    c1 := ' ', c2 := ' ', c3 := ' ' }

/-- Import record carrying the one-cell board above together with turn
'X': validation checks only the board counts, not the turn. -/
def registro_desequilibrado : EstadoJogo :=
  { tabuleiro := tabuleiro_um_x, turno := 'X', jogo_ativo := true,
    estatisticas := obter_estatisticas_tabuleiro tabuleiro_um_x }

/-- State obtained by importing the unbalanced record into the fresh
state; the import succeeds. -/
def estado_desequilibrado : GameState :=
  (importar_estado_jogo estado_inicial registro_desequilibrado).1

/-- C2 counterexample: importing a board with one 'X' together with turn
'X' passes the integrity check, and the next move puts a second 'X' on the
board, reaching a state whose count difference is two; the state is
reachable from the fresh state through the public operations. -/
theorem claim2_contraexemplo :
    Alcancavel (fazer_jogada estado_desequilibrado '8') ∧
    contagem_diferenca (fazer_jogada estado_desequilibrado '8').tabuleiro = 2 := by
  constructor
  · exact Alcancavel.jogada _ '8'
      (Alcancavel.importada estado_inicial registro_desequilibrado
        Alcancavel.inicial)
  · decide

/-- C2 amended: for every state reachable from the fresh state through
fazer_jogada and reiniciar alone, without importar_estado_jogo, the count
of 'X' cells minus the count of 'O' cells is zero or one. -/
theorem claim2_emendada (s : GameState) (h : AlcancavelNucleo s) :
    contagem_diferenca s.tabuleiro = 0 ∨ contagem_diferenca s.tabuleiro = 1 :=
  (inv_alcancavel s h).1

/-- C2 amended witness: the state after one move from the fresh state. -/
theorem claim2_emendada_testemunha :
    contagem_diferenca (fazer_jogada estado_inicial '5').tabuleiro = 0 ∨
    contagem_diferenca (fazer_jogada estado_inicial '5').tabuleiro = 1 :=
  claim2_emendada (fazer_jogada estado_inicial '5')
    (AlcancavelNucleo.jogada estado_inicial '5' AlcancavelNucleo.inicial)

theorem validar_false_iff (b : Board) :
    (validar_integridade_tabuleiro b).1 = false ↔
    ¬ (contagem_diferenca b = 0 ∨ contagem_diferenca b = 1) ∨
    ∃ v ∈ b.values, ¬ (v = 'X' ∨ v = 'O' ∨ v = ' ') := by
  unfold validar_integridade_tabuleiro
  by_cases hd : ((b.values.count 'X' : Int) - (b.values.count 'O' : Int) < 0 ∨
      (b.values.count 'X' : Int) - (b.values.count 'O' : Int) > 1)
  · rw [if_pos hd]
    have hne : ¬ (contagem_diferenca b = 0 ∨ contagem_diferenca b = 1) := by
      unfold contagem_diferenca
      omega
    simp [hne]
  · rw [if_neg hd]
    have hdok : contagem_diferenca b = 0 ∨ contagem_diferenca b = 1 := by
      unfold contagem_diferenca
      omega
    cases hfind : b.values.find? (fun v => !(v == 'X' || v == 'O' || v == ' ')) with
    | some v =>
      have hmem := List.mem_of_find?_eq_some hfind
      have hpred := List.find?_some hfind
      have hv : ¬ (v = 'X' ∨ v = 'O' ∨ v = ' ') := by
        intro hc
        rcases hc with rfl | rfl | rfl <;> simp at hpred
      exact iff_of_true rfl (Or.inr ⟨v, hmem, hv⟩)
    | none =>
      have hall := List.find?_eq_none.mp hfind
      have hnov : ¬ ∃ v ∈ b.values, ¬ (v = 'X' ∨ v = 'O' ∨ v = ' ') := by
        rintro ⟨v, hmem, hv⟩
        have := hall v hmem
        simp at this
        exact hv (by tauto)
      exact iff_of_false (by simp)
        (fun hc => hc.elim (fun h1 => h1 hdok) hnov)

/-- C5: importar_estado_jogo fails exactly when the count difference of
the record board lies outside zero-or-one (covering more 'O' than 'X') or
some cell of the record board is not 'X', 'O' or blank; on failure the
prior state is returned untouched, and on success the board, turn and
active flag of the record replace those of the state. -/
theorem claim5_importacao (jogo : GameState) (estado : EstadoJogo) :
    ((importar_estado_jogo jogo estado).2 = false ↔
      ¬ (contagem_diferenca estado.tabuleiro = 0 ∨
         contagem_diferenca estado.tabuleiro = 1) ∨
      ∃ v ∈ estado.tabuleiro.values, ¬ (v = 'X' ∨ v = 'O' ∨ v = ' ')) ∧
    ((importar_estado_jogo jogo estado).2 = false →
      (importar_estado_jogo jogo estado).1 = jogo) ∧
    ((importar_estado_jogo jogo estado).2 = true →
      (importar_estado_jogo jogo estado).1 =
        { tabuleiro := estado.tabuleiro, turno := estado.turno,
          jogo_ativo := estado.jogo_ativo }) := by
  by_cases hval : (validar_integridade_tabuleiro estado.tabuleiro).1 = false
  · have himp : importar_estado_jogo jogo estado = (jogo, false) := by
      unfold importar_estado_jogo
      rw [if_pos hval]
    rw [himp]
    refine ⟨?_, fun _ => rfl, fun hc => by simp at hc⟩
    simpa using (validar_false_iff estado.tabuleiro).mp hval
  · have himp : importar_estado_jogo jogo estado =
        ({ tabuleiro := estado.tabuleiro, turno := estado.turno,
           jogo_ativo := estado.jogo_ativo }, true) := by
      unfold importar_estado_jogo
      rw [if_neg hval]
    rw [himp]
    refine ⟨?_, fun hc => by simp at hc, fun _ => rfl⟩
    constructor
    · intro hc
      simp at hc
    · intro hrhs
      exact absurd ((validar_false_iff estado.tabuleiro).mpr hrhs) hval

/-- C5 witness: a record whose board carries three 'X' and one 'O' (count
difference two) is rejected and the fresh state is left untouched. -/
def tabuleiro_tres_x : Board :=
  { c7 := 'X', c8 := 'X', c9 := 'X', c4 := 'O', c5 := ' ', c6 := ' ',
    c1 := ' ', c2 := ' ', c3 := ' ' }

/-- Record used by the C5 witness. -/
def registro_tres_x : EstadoJogo :=
  { tabuleiro := tabuleiro_tres_x, turno := 'O', jogo_ativo := true,
    estatisticas := obter_estatisticas_tabuleiro tabuleiro_tres_x }

/-- C5 witness: the unbalanced record is rejected with the state intact. -/
theorem claim5_testemunha :
    (importar_estado_jogo estado_inicial registro_tres_x).2 = false ∧
    (importar_estado_jogo estado_inicial registro_tres_x).1 = estado_inicial := by
  have h := claim5_importacao estado_inicial registro_tres_x
  have hfail : (importar_estado_jogo estado_inicial registro_tres_x).2 = false :=
    h.1.mpr (Or.inl (by decide))
  exact ⟨hfail, h.2.1 hfail⟩

/-- C6: exporting a state reachable through the core operations and
importing the exported record back succeeds and reproduces the same
board, turn and active flag. -/
theorem claim6_ida_e_volta (s : GameState) (h : AlcancavelNucleo s) :
    importar_estado_jogo s (exportar_estado_jogo s) = (s, true) := by
  obtain ⟨hdif, _, hcel⟩ := inv_alcancavel s h
  have hd2 : ¬ ((s.tabuleiro.values.count 'X' : Int) -
      (s.tabuleiro.values.count 'O' : Int) < 0 ∨
      (s.tabuleiro.values.count 'X' : Int) -
      (s.tabuleiro.values.count 'O' : Int) > 1) := by
    unfold contagem_diferenca at hdif
    omega
  have hfind : s.tabuleiro.values.find?
      (fun v => !(v == 'X' || v == 'O' || v == ' ')) = none := by
    apply List.find?_eq_none.mpr
    intro v hv
    rcases hcel v hv with rfl | rfl | rfl <;> decide
  have hval : (validar_integridade_tabuleiro s.tabuleiro).1 = true := by
    unfold validar_integridade_tabuleiro
    rw [if_neg hd2, hfind]
  have hval' : ¬ ((validar_integridade_tabuleiro
      (exportar_estado_jogo s).tabuleiro).1 = false) := by
    show ¬ ((validar_integridade_tabuleiro s.tabuleiro).1 = false)
    simp [hval]
  unfold importar_estado_jogo
  rw [if_neg hval']
  rfl

/-- C6 witness: the round trip on the fresh state itself. -/
theorem claim6_testemunha :
    importar_estado_jogo estado_inicial (exportar_estado_jogo estado_inicial) =
      (estado_inicial, true) :=
  claim6_ida_e_volta estado_inicial AlcancavelNucleo.inicial

theorem heur_foldl_mono (b : Board) (simbolo : Char) :
    ∀ (l : List (List Char)) (acc : Nat),
      acc ≤ l.foldl (fun pontuacao seq =>
        let valores := seq.map b.get
        let count_simbolo := valores.count simbolo
        let count_vazio := valores.count ' '
        let count_oponente := 3 - count_simbolo - count_vazio
        if count_oponente > 0 then pontuacao
        else if count_simbolo = 3 then pontuacao + 100
        else if count_simbolo = 2 ∧ count_vazio = 1 then pontuacao + 10
        else if count_simbolo = 1 ∧ count_vazio = 2 then pontuacao + 1
        else pontuacao) acc := by
  intro l
  induction l with
  | nil => intro acc; exact le_refl acc
  | cons seq resto ih =>
    intro acc
    rw [List.foldl_cons]
    refine le_trans ?_ (ih _)
    dsimp only
    split_ifs <;> omega

theorem heur_passo_100 (b : Board) (v : Char) (seq : List Char)
    (hmap : seq.map b.get = [v, v, v]) (hv : v ≠ ' ') (acc : Nat) :
    (fun pontuacao seq =>
        let valores := seq.map b.get
        let count_simbolo := valores.count v
        let count_vazio := valores.count ' '
        let count_oponente := 3 - count_simbolo - count_vazio
        if count_oponente > 0 then pontuacao
        else if count_simbolo = 3 then pontuacao + 100
        else if count_simbolo = 2 ∧ count_vazio = 1 then pontuacao + 10
        else if count_simbolo = 1 ∧ count_vazio = 2 then pontuacao + 1
        else pontuacao) acc seq = acc + 100 := by
  dsimp only
  rw [hmap]
  have c1 : ([v, v, v] : List Char).count v = 3 := by simp
  have c2 : ([v, v, v] : List Char).count ' ' = 0 := by
    simp [List.count_cons, hv]
  rw [c1, c2]
  norm_num

theorem heur_ge_100 (b : Board) (v : Char) (seq : List Char)
    (hseq : seq ∈ obter_todas_sequencias_vencedoras)
    (hmap : seq.map b.get = [v, v, v]) (hv : v ≠ ' ') :
    100 ≤ calcular_heuristica_tabuleiro b v := by
  obtain ⟨l1, l2, hsplit⟩ := List.append_of_mem hseq
  unfold calcular_heuristica_tabuleiro
  rw [hsplit, List.foldl_append, List.foldl_cons]
  refine le_trans ?_ (heur_foldl_mono b v l2 _)
  show 100 ≤ (fun pontuacao seq =>
    let valores := seq.map b.get
    let count_simbolo := valores.count v
    let count_vazio := valores.count ' '
    let count_oponente := 3 - count_simbolo - count_vazio
    if count_oponente > 0 then pontuacao
    else if count_simbolo = 3 then pontuacao + 100
    else if count_simbolo = 2 ∧ count_vazio = 1 then pontuacao + 10
    else if count_simbolo = 1 ∧ count_vazio = 2 then pontuacao + 1
    else pontuacao)
      (List.foldl (fun pontuacao seq =>
        let valores := seq.map b.get
        let count_simbolo := valores.count v
        let count_vazio := valores.count ' '
        let count_oponente := 3 - count_simbolo - count_vazio
        if count_oponente > 0 then pontuacao
        else if count_simbolo = 3 then pontuacao + 100
        else if count_simbolo = 2 ∧ count_vazio = 1 then pontuacao + 10
        else if count_simbolo = 1 ∧ count_vazio = 2 then pontuacao + 1
        else pontuacao) 0 l1) seq
  rw [heur_passo_100 b v seq hmap hv]
  omega

theorem heur_caso (b : Board) (v x y z : Char)
    (h1 : b.get x = b.get y) (h2 : b.get y = b.get z)
    (h3 : ¬ b.get z = ' ') (hval : v = b.get x)
    (hseq : [x, y, z] ∈ obter_todas_sequencias_vencedoras) :
    100 ≤ calcular_heuristica_tabuleiro b v := by
  apply heur_ge_100 b v [x, y, z] hseq
  · simp [hval, h1, h2]
  · rw [hval, h1, h2]
    exact h3

/-- C8: whenever the win detector reports a win for a symbol, the
heuristic score of that board for that symbol is at least 100. -/
theorem claim8_heuristica (b : Board) (v : Char) (tr : List Char)
    (h : verificar_tabuleiro b = .vitoria v tr) :
    100 ≤ calcular_heuristica_tabuleiro b v := by
  rw [verificar_eq_scan] at h
  obtain ⟨htr, hu, hval⟩ := avaliar_aux_vitoria b tabela_deteccao v tr h
  have hmem : tr = ['7', '4', '1'] ∨ tr = ['8', '5', '2'] ∨
      tr = ['9', '6', '3'] ∨ tr = ['7', '8', '9'] ∨ tr = ['4', '5', '6'] ∨
      tr = ['1', '2', '3'] ∨ tr = ['7', '5', '3'] ∨ tr = ['1', '5', '9'] := by
    simpa [tabela_deteccao] using htr
  rcases hmem with rfl|rfl|rfl|rfl|rfl|rfl|rfl|rfl <;>
    (simp only [linha_uniforme, decide_eq_true_eq] at hu
     exact heur_caso b v _ _ _ hu.1 hu.2.1 hu.2.2 hval (by decide))

/-- C8 witness: the board whose left column is filled with 'X'. -/
def tabuleiro_coluna_x : Board :=
  { c7 := 'X', c8 := ' ', c9 := ' ', c4 := 'X', c5 := ' ', c6 := ' ',
    c1 := 'X', c2 := ' ', c3 := ' ' }

/-- C8 witness: on the left-column win the heuristic for 'X' reaches at
least 100. -/
theorem claim8_testemunha :
    verificar_tabuleiro tabuleiro_coluna_x = .vitoria 'X' ['7', '4', '1'] ∧
    100 ≤ calcular_heuristica_tabuleiro tabuleiro_coluna_x 'X' :=
  ⟨by decide, claim8_heuristica tabuleiro_coluna_x 'X' ['7', '4', '1'] (by decide)⟩

theorem analisar_interno_mem (b : Board) :
    ∀ (seq : List Char) (acc : List Char) (q : Char),
      q ∈ seq.foldl (fun acc2 pos =>
        if b.get pos = ' ' ∧ pos ∉ acc2 then acc2 ++ [pos] else acc2) acc →
      q ∈ acc ∨ (q ∈ seq ∧ b.get q = ' ') := by
  intro seq
  induction seq with
  | nil =>
    intro acc q h
    exact Or.inl h
  | cons pos rest ih =>
    intro acc q h
    rw [List.foldl_cons] at h
    rcases ih _ q h with hacc | ⟨hm, hg⟩
    · by_cases hc : b.get pos = ' ' ∧ pos ∉ acc
      · rw [if_pos hc] at hacc
        rcases List.mem_append.mp hacc with h1 | h1
        · exact Or.inl h1
        · have : q = pos := by simpa using h1
          subst this
          exact Or.inr ⟨List.mem_cons_self _ _, hc.1⟩
      · rw [if_neg hc] at hacc
        exact Or.inl hacc
    · exact Or.inr ⟨List.mem_cons_of_mem _ hm, hg⟩

theorem analisar_externo_mem (b : Board) (simbolo : Char) :
    ∀ (l : List (List Char)) (acc : List Char) (q : Char),
      q ∈ l.foldl (fun acc seq =>
        let valores := seq.map b.get
        if valores.count simbolo = 2 ∧ valores.count ' ' = 1 then
          seq.foldl (fun acc2 pos =>
            if b.get pos = ' ' ∧ pos ∉ acc2 then acc2 ++ [pos] else acc2) acc
        else acc) acc →
      q ∈ acc ∨ ∃ seq ∈ l, q ∈ seq ∧ b.get q = ' ' := by
  intro l
  induction l with
  | nil =>
    intro acc q h
    exact Or.inl h
  | cons seq rest ih =>
    intro acc q h
    rw [List.foldl_cons] at h
    rcases ih _ q h with h1 | ⟨s2, hs2, hq2⟩
    · dsimp only at h1
      by_cases hc : (seq.map b.get).count simbolo = 2 ∧
          (seq.map b.get).count ' ' = 1
      · rw [if_pos hc] at h1
        rcases analisar_interno_mem b seq acc q h1 with h2 | ⟨h2, h3⟩
        · exact Or.inl h2
        · exact Or.inr ⟨seq, List.mem_cons_self _ _, h2, h3⟩
      · rw [if_neg hc] at h1
        exact Or.inl h1
    · exact Or.inr ⟨s2, List.mem_cons_of_mem _ hs2, hq2⟩

theorem analisar_mem (b : Board) (simbolo q : Char)
    (hq : q ∈ analisar_posicoes_criticas b simbolo) :
    q ∈ Board.chaves ∧ b.get q = ' ' := by
  unfold analisar_posicoes_criticas at hq
  rcases analisar_externo_mem b simbolo _ [] q hq with h | ⟨seq, hs, hqe, hg⟩
  · cases h
  · refine ⟨?_, hg⟩
    have htab : ∀ s2 ∈ obter_todas_sequencias_vencedoras,
        ∀ r ∈ s2, r ∈ Board.chaves := by decide
    exact htab seq hs q hqe

theorem blank_in_values (b : Board) (q : Char) (hq : q ∈ Board.chaves)
    (hg : b.get q = ' ') : ' ' ∈ b.values := by
  rcases chaves_cases q hq with rfl|rfl|rfl|rfl|rfl|rfl|rfl|rfl|rfl <;>
    simp_all [Board.values, Board.get_l7, Board.get_l8, Board.get_l9,
      Board.get_l4, Board.get_l5, Board.get_l6, Board.get_l1, Board.get_l2,
      Board.get_l3]

theorem sem_vazias_iff (b : Board) :
    b.values.count ' ' = 0 ↔ ∀ q ∈ Board.chaves, ¬ b.get q = ' ' := by
  rw [List.count_eq_zero]
  constructor
  · intro h q hq hg
    exact h (blank_in_values b q hq hg)
  · intro hall hx
    simp only [Board.values, List.mem_cons, List.not_mem_nil, or_false] at hx
    rcases hx with h|h|h|h|h|h|h|h|h
    · exact hall '7' (by decide) h.symm
    · exact hall '8' (by decide) h.symm
    · exact hall '9' (by decide) h.symm
    · exact hall '4' (by decide) h.symm
    · exact hall '5' (by decide) h.symm
    · exact hall '6' (by decide) h.symm
    · exact hall '1' (by decide) h.symm
    · exact hall '2' (by decide) h.symm
    · exact hall '3' (by decide) h.symm

theorem disponiveis_nil_iff (b : Board) :
    Board.chaves.filter (fun pos => b.get pos == ' ') = [] ↔
    b.values.count ' ' = 0 := by
  rw [List.filter_eq_nil_iff, sem_vazias_iff]
  constructor <;> intro h q hq <;> have h2 := h q hq <;> simpa using h2

theorem analisar_nil_of_sem_vazias (b : Board) (simbolo : Char)
    (h : b.values.count ' ' = 0) :
    analisar_posicoes_criticas b simbolo = [] := by
  cases hn : analisar_posicoes_criticas b simbolo with
  | nil => rfl
  | cons a l =>
    obtain ⟨hq, hg⟩ := analisar_mem b simbolo a (by rw [hn]; exact List.mem_cons_self _ _)
    have := blank_in_values b a hq hg
    rw [List.count_eq_zero] at h
    exact absurd this h

theorem melhor_critica_propria (b : Board) (s p : Char) (rest : List Char)
    (h : analisar_posicoes_criticas b s = p :: rest) :
    obter_melhor_jogada b s = some p := by
  unfold obter_melhor_jogada
  rw [h]

theorem melhor_critica_oponente (b : Board) (s : Char)
    (h0 : analisar_posicoes_criticas b s = []) (p : Char) (rest : List Char)
    (h1 : analisar_posicoes_criticas b (if s = 'X' then 'O' else 'X') =
      p :: rest) :
    obter_melhor_jogada b s = some p := by
  unfold obter_melhor_jogada
  rw [h0, h1]

theorem melhor_centro (b : Board) (s : Char)
    (h0 : analisar_posicoes_criticas b s = [])
    (h1 : analisar_posicoes_criticas b (if s = 'X' then 'O' else 'X') = [])
    (h5 : b.get '5' = ' ') :
    obter_melhor_jogada b s = some '5' := by
  unfold obter_melhor_jogada
  rw [h0, h1]
  dsimp only
  have hmem : '5' ∈ Board.chaves.filter (fun pos => b.get pos == ' ') :=
    List.mem_filter.mpr ⟨by decide, by simp [h5]⟩
  rw [if_neg (by simpa [List.isEmpty_iff] using List.ne_nil_of_mem hmem),
    if_pos (List.elem_eq_true_of_mem hmem)]

theorem melhor_canto (b : Board) (s : Char)
    (h0 : analisar_posicoes_criticas b s = [])
    (h1 : analisar_posicoes_criticas b (if s = 'X' then 'O' else 'X') = [])
    (h5 : ¬ b.get '5' = ' ') (c : Char) (rest : List Char)
    (hc : (['1', '3', '7', '9'] : List Char).filter
      (fun pos =>
        (Board.chaves.filter (fun pos => b.get pos == ' ')).contains pos) =
      c :: rest) :
    obter_melhor_jogada b s = some c := by
  unfold obter_melhor_jogada
  rw [h0, h1]
  dsimp only
  have hcmem : c ∈ (['1', '3', '7', '9'] : List Char).filter
      (fun pos =>
        (Board.chaves.filter (fun pos => b.get pos == ' ')).contains pos) := by
    rw [hc]
    exact List.mem_cons_self _ _
  have hcd : c ∈ Board.chaves.filter (fun pos => b.get pos == ' ') :=
    List.mem_of_elem_eq_true ((List.mem_filter.mp hcmem).2)
  have h5n : ¬ (Board.chaves.filter
      (fun pos => b.get pos == ' ')).contains '5' = true := by
    intro hcont
    have := List.of_mem_filter (List.mem_of_elem_eq_true hcont)
    exact h5 (by simpa using this)
  rw [if_neg (by simpa [List.isEmpty_iff] using List.ne_nil_of_mem hcd),
    if_neg h5n, hc]

theorem melhor_restante (b : Board) (s : Char)
    (h0 : analisar_posicoes_criticas b s = [])
    (h1 : analisar_posicoes_criticas b (if s = 'X' then 'O' else 'X') = [])
    (h5 : ¬ b.get '5' = ' ')
    (hcantos : (['1', '3', '7', '9'] : List Char).filter
      (fun pos =>
        (Board.chaves.filter (fun pos => b.get pos == ' ')).contains pos) = [])
    (p : Char) (rest : List Char)
    (hd : Board.chaves.filter (fun pos => b.get pos == ' ') = p :: rest) :
    obter_melhor_jogada b s = some p := by
  unfold obter_melhor_jogada
  rw [h0, h1]
  dsimp only
  have h5n : ¬ (Board.chaves.filter
      (fun pos => b.get pos == ' ')).contains '5' = true := by
    intro hcont
    have := List.of_mem_filter (List.mem_of_elem_eq_true hcont)
    exact h5 (by simpa using this)
  rw [if_neg (by simp [List.isEmpty_iff, hd]), if_neg h5n, hcantos, hd]
  rfl

theorem melhor_none_iff (b : Board) (s : Char) :
    obter_melhor_jogada b s = none ↔ b.values.count ' ' = 0 := by
  constructor
  · intro h
    by_contra hcnt
    cases ha : analisar_posicoes_criticas b s with
    | cons p rest =>
      rw [melhor_critica_propria b s p rest ha] at h
      cases h
    | nil =>
      cases hb : analisar_posicoes_criticas b
          (if s = 'X' then 'O' else 'X') with
      | cons p rest =>
        rw [melhor_critica_oponente b s ha p rest hb] at h
        cases h
      | nil =>
        cases hd : Board.chaves.filter (fun pos => b.get pos == ' ') with
        | nil => exact hcnt ((disponiveis_nil_iff b).mp hd)
        | cons p rest =>
          by_cases h5 : b.get '5' = ' '
          · rw [melhor_centro b s ha hb h5] at h
            cases h
          · cases hcc : (['1', '3', '7', '9'] : List Char).filter
                (fun pos => (Board.chaves.filter
                  (fun pos => b.get pos == ' ')).contains pos) with
            | cons c r2 =>
              rw [melhor_canto b s ha hb h5 c r2 hcc] at h
              cases h
            | nil =>
              rw [melhor_restante b s ha hb h5 hcc p rest hd] at h
              cases h
  · intro h
    have ha := analisar_nil_of_sem_vazias b s h
    have hb := analisar_nil_of_sem_vazias b (if s = 'X' then 'O' else 'X') h
    have hd := (disponiveis_nil_iff b).mpr h
    unfold obter_melhor_jogada
    rw [ha, hb]
    dsimp only
    rw [if_pos (by simp [List.isEmpty_iff, hd])]

/-- C7: obter_melhor_jogada follows the priority chain of the source: the
first own critical position when one exists (a member of that set), else
the first critical position of the opponent, else the centre when blank,
else the first blank corner in the order 1,3,7,9, else the first blank
position in key-declaration order; and it returns none exactly when no
blank cell exists. -/
theorem claim7_melhor_jogada (b : Board) (s : Char) :
    (obter_melhor_jogada b s = none ↔ b.values.count ' ' = 0) ∧
    (∀ p rest, analisar_posicoes_criticas b s = p :: rest →
      obter_melhor_jogada b s = some p ∧
        p ∈ analisar_posicoes_criticas b s) ∧
    (∀ p rest, analisar_posicoes_criticas b s = [] →
      analisar_posicoes_criticas b (if s = 'X' then 'O' else 'X') =
        p :: rest →
      obter_melhor_jogada b s = some p ∧
        p ∈ analisar_posicoes_criticas b (if s = 'X' then 'O' else 'X')) ∧
    (analisar_posicoes_criticas b s = [] →
      analisar_posicoes_criticas b (if s = 'X' then 'O' else 'X') = [] →
      b.get '5' = ' ' → obter_melhor_jogada b s = some '5') ∧
    (∀ c rest, analisar_posicoes_criticas b s = [] →
      analisar_posicoes_criticas b (if s = 'X' then 'O' else 'X') = [] →
      ¬ b.get '5' = ' ' →
      (['1', '3', '7', '9'] : List Char).filter
        (fun pos => (Board.chaves.filter
          (fun pos => b.get pos == ' ')).contains pos) = c :: rest →
      obter_melhor_jogada b s = some c) ∧
    (∀ p rest, analisar_posicoes_criticas b s = [] →
      analisar_posicoes_criticas b (if s = 'X' then 'O' else 'X') = [] →
      ¬ b.get '5' = ' ' →
      (['1', '3', '7', '9'] : List Char).filter
        (fun pos => (Board.chaves.filter
          (fun pos => b.get pos == ' ')).contains pos) = [] →
      Board.chaves.filter (fun pos => b.get pos == ' ') = p :: rest →
      obter_melhor_jogada b s = some p) := by
  refine ⟨melhor_none_iff b s, ?_, ?_,
    fun h0 h1 h5 => melhor_centro b s h0 h1 h5,
    fun c rest h0 h1 h5 hc => melhor_canto b s h0 h1 h5 c rest hc,
    fun p rest h0 h1 h5 hcc hd => melhor_restante b s h0 h1 h5 hcc p rest hd⟩
  · intro p rest h
    refine ⟨melhor_critica_propria b s p rest h, ?_⟩
    rw [h]
    exact List.mem_cons_self _ _
  · intro p rest h0 h1
    refine ⟨melhor_critica_oponente b s h0 p rest h1, ?_⟩
    rw [h1]
    exact List.mem_cons_self _ _

/-- Board of the third scenario of the spec: 'X' on 7 and 5, the cell 3
blank, everything else blank. -/
def tabuleiro_quase : Board :=
  { c7 := 'X', c8 := ' ', c9 := ' ', c4 := ' ', c5 := 'X', c6 := ' ',
    c1 := ' ', c2 := ' ', c3 := ' ' }

/-- C7 witness: with 'X' on 7 and 5 the only critical position is 3 and
the advisor returns it. -/
theorem claim7_testemunha :
    analisar_posicoes_criticas tabuleiro_quase 'X' = ['3'] ∧
    obter_melhor_jogada tabuleiro_quase 'X' = some '3' ∧
    '3' ∈ analisar_posicoes_criticas tabuleiro_quase 'X' := by
  have h := (claim7_melhor_jogada tabuleiro_quase 'X').2.1 '3' [] (by decide)
  exact ⟨by decide, h.1, h.2⟩

theorem inserir_length {α : Type} (le : α → α → Bool) (x : α) :
    ∀ l : List α, (inserir le x l).length = l.length + 1 := by
  intro l
  induction l with
  | nil => rfl
  | cons y ys ih =>
    unfold inserir
    split_ifs <;> simp [ih]

theorem ordenar_length {α : Type} (le : α → α → Bool) :
    ∀ l : List α, (ordenar le l).length = l.length := by
  intro l
  induction l with
  | nil => rfl
  | cons x xs ih =>
    unfold ordenar
    rw [inserir_length, ih]
    rfl

/-- C9 amended: the classification of criar_linha_vitoria is diagonal
exactly on the unordered position sets 357 and 159 regardless of the
rectangles; a non-diagonal triple is horizontal exactly when the two
adjacent centre-Y differences of the rects sorted by (top, left) are below
five, vertical exactly when it is not horizontal and the two adjacent
centre-X differences are below five, and otherwise the defensive error
branch produces no descriptor. -/
theorem claim9_emendada (posicoes : List Char) (r0 r1 r2 : Rect)
    (hlen : posicoes.length = 3) :
    (∃ s0 s1 s2, ordenar rect_le [r0, r1, r2] = [s0, s1, s2]) ∧
    (classificar_linha_vitoria posicoes [r0, r1, r2] =
        some TipoLinha.diagonal1 ↔
      ordenar (fun a b => decide (a ≤ b)) (posicoes.map digito) =
        [3, 5, 7]) ∧
    (classificar_linha_vitoria posicoes [r0, r1, r2] =
        some TipoLinha.diagonal2 ↔
      ordenar (fun a b => decide (a ≤ b)) (posicoes.map digito) =
        [1, 5, 9]) ∧
    (∀ s0 s1 s2, ordenar rect_le [r0, r1, r2] = [s0, s1, s2] →
      ¬ ordenar (fun a b => decide (a ≤ b)) (posicoes.map digito) =
        [3, 5, 7] →
      ¬ ordenar (fun a b => decide (a ≤ b)) (posicoes.map digito) =
        [1, 5, 9] →
      ((classificar_linha_vitoria posicoes [r0, r1, r2] =
          some TipoLinha.horizontal ↔
        valor_absoluto (s0.centerY - s1.centerY) < 5 ∧
          valor_absoluto (s1.centerY - s2.centerY) < 5) ∧
       (classificar_linha_vitoria posicoes [r0, r1, r2] =
          some TipoLinha.vertical ↔
        ¬ (valor_absoluto (s0.centerY - s1.centerY) < 5 ∧
            valor_absoluto (s1.centerY - s2.centerY) < 5) ∧
          (valor_absoluto (s0.centerX - s1.centerX) < 5 ∧
            valor_absoluto (s1.centerX - s2.centerX) < 5)) ∧
       (classificar_linha_vitoria posicoes [r0, r1, r2] = none ↔
        ¬ (valor_absoluto (s0.centerY - s1.centerY) < 5 ∧
            valor_absoluto (s1.centerY - s2.centerY) < 5) ∧
          ¬ (valor_absoluto (s0.centerX - s1.centerX) < 5 ∧
            valor_absoluto (s1.centerX - s2.centerX) < 5)))) := by
  have hsort3 : (ordenar rect_le [r0, r1, r2]).length = 3 := by
    rw [ordenar_length]
    rfl
  obtain ⟨a, b2, c, habc⟩ := List.length_eq_three.mp hsort3
  have hcdef : classificar_linha_vitoria posicoes [r0, r1, r2] =
      (if ordenar (fun a b => decide (a ≤ b)) (posicoes.map digito) =
          [3, 5, 7] then some TipoLinha.diagonal1
       else if ordenar (fun a b => decide (a ≤ b)) (posicoes.map digito) =
          [1, 5, 9] then some TipoLinha.diagonal2
       else
        if valor_absoluto (a.centerY - b2.centerY) < 5 ∧
            valor_absoluto (b2.centerY - c.centerY) < 5 then
          some TipoLinha.horizontal
        else if valor_absoluto (a.centerX - b2.centerX) < 5 ∧
            valor_absoluto (b2.centerX - c.centerX) < 5 then
          some TipoLinha.vertical
        else none) := by
    unfold classificar_linha_vitoria
    rw [if_neg (by simp [hlen]), if_neg (by simp)]
    dsimp only
    rw [habc]
  refine ⟨⟨a, b2, c, habc⟩, ?_, ?_, ?_⟩
  · rw [hcdef]
    by_cases h1 : ordenar (fun a b => decide (a ≤ b))
        (posicoes.map digito) = [3, 5, 7]
    · rw [if_pos h1]
      simp [h1]
    · rw [if_neg h1]
      split_ifs <;> simp [h1]
  · rw [hcdef]
    by_cases h1 : ordenar (fun a b => decide (a ≤ b))
        (posicoes.map digito) = [3, 5, 7]
    · rw [if_pos h1]
      constructor
      · intro hc
        cases hc
      · intro h2
        rw [h1] at h2
        cases h2
    · rw [if_neg h1]
      by_cases h2 : ordenar (fun a b => decide (a ≤ b))
          (posicoes.map digito) = [1, 5, 9]
      · rw [if_pos h2]
        simp [h2]
      · rw [if_neg h2]
        split_ifs <;> simp [h2]
  · intro s0 s1 s2 hseq h1 h2
    rw [habc] at hseq
    obtain ⟨rfl, rfl, rfl⟩ : a = s0 ∧ b2 = s1 ∧ c = s2 := by simpa using hseq
    rw [hcdef, if_neg h1, if_neg h2]
    split_ifs with hh hv <;> simp_all

/-- Degenerate cell rectangle at height zero, centre Y zero. -/
def rect_c9_0 : Rect := ⟨0, 0, 0, 0⟩

/-- Degenerate cell rectangle at height four, centre Y four. -/
def rect_c9_1 : Rect := ⟨0, 4, 0, 4⟩

/-- Degenerate cell rectangle at height eight, centre Y eight. -/
def rect_c9_2 : Rect := ⟨0, 8, 0, 8⟩

/-- C9 counterexample: with centre-Y values 0, 4 and 8 the two adjacent
differences are below the tolerance, so the source classifies the
non-diagonal triple 7,8,9 as horizontal, yet the three centre-Y values are
not mutually within five units (the extremes differ by eight). -/
theorem claim9_contraexemplo :
    classificar_linha_vitoria ['7', '8', '9']
        [rect_c9_0, rect_c9_1, rect_c9_2] = some TipoLinha.horizontal ∧
    ¬ mutuamente_proximos rect_c9_0.centerY rect_c9_1.centerY
        rect_c9_2.centerY := by
  constructor
  · have d7 : digito '7' = 7 := by decide
    have d8 : digito '8' = 8 := by decide
    have d9 : digito '9' = 9 := by decide
    norm_num [classificar_linha_vitoria, ordenar, inserir, rect_le,
      valor_absoluto, Rect.centerY, Rect.centerX, rect_c9_0, rect_c9_1,
      rect_c9_2, d7, d8, d9]
  · intro hm
    have h3 := hm.2.2
    norm_num [valor_absoluto, Rect.centerY, rect_c9_0, rect_c9_2] at h3

/-- C9 amended witness: the diagonal test of the triple 7,4,1 at the
concrete rectangles. -/
theorem claim9_testemunha :
    classificar_linha_vitoria ['7', '4', '1']
        [rect_c9_0, rect_c9_1, rect_c9_2] = some TipoLinha.diagonal1 ↔
      ordenar (fun a b => decide (a ≤ b))
        ((['7', '4', '1'] : List Char).map digito) = [3, 5, 7] :=
  (claim9_emendada ['7', '4', '1'] rect_c9_0 rect_c9_1 rect_c9_2
    (by decide)).2.1

/-- Board holding a completed 'O' column 7,4,1 beside three scattered 'X'
cells; the symbol counts balance, so import accepts it. -/
def tabuleiro_o_vencedor : Board :=
  { c7 := 'O', c8 := 'X', c9 := ' ', c4 := 'O', c5 := 'X', c6 := ' ',
    c1 := 'O', c2 := ' ', c3 := 'X' }

/-- Import record pairing the finished 'O' column with turn 'X' and an
active flag. -/
def registro_o_vencedor : EstadoJogo :=
  { tabuleiro := tabuleiro_o_vencedor, turno := 'X', jogo_ativo := true,
    estatisticas := obter_estatisticas_tabuleiro tabuleiro_o_vencedor }

/-- State obtained by importing the record above into the fresh state. -/
def estado_o_vencedor : GameState :=
  (importar_estado_jogo estado_inicial registro_o_vencedor).1

/-- C10 counterexample: on the imported state the applied move of 'X' at 9
produces the win outcome for 'O' (the detector finds the pre-existing 'O'
column) and deactivates the game, yet the turn symbol after the move is
'X', so the reported winner is not the player who made the last move; the
state is reachable through the public operations. -/
theorem claim10_contraexemplo :
    Alcancavel (fazer_jogada estado_o_vencedor '9') ∧
    estado_o_vencedor.jogo_ativo = true ∧
    verificar_jogada estado_o_vencedor.tabuleiro '9' = true ∧
    verificar_tabuleiro (fazer_jogada estado_o_vencedor '9').tabuleiro =
      .vitoria 'O' ['7', '4', '1'] ∧
    (fazer_jogada estado_o_vencedor '9').jogo_ativo = false ∧
    (fazer_jogada estado_o_vencedor '9').turno = 'X' := by
  refine ⟨Alcancavel.jogada _ '9'
    (Alcancavel.importada estado_inicial registro_o_vencedor
      Alcancavel.inicial), by decide, by decide, by decide, by decide,
    by decide⟩

/-- C10 amended: for every applied move on an active state with a proper
turn symbol, a win outcome by 'X' or 'O' and a draw outcome leave the turn
untouched and deactivate the game, an in-progress outcome toggles the turn
and keeps the game active, and when additionally the pre-move board holds
no completed line, the winning symbol of a win outcome is the placed turn
symbol, so the turn after the move equals the winner. -/
theorem claim10_emendada (s : GameState) (p : Char)
    (ha : s.jogo_ativo = true)
    (hv : verificar_jogada s.tabuleiro p = true)
    (ht : s.turno = 'X' ∨ s.turno = 'O') :
    (∀ v tr, verificar_tabuleiro (s.tabuleiro.set p s.turno) =
        .vitoria v tr → (v = 'X' ∨ v = 'O') →
      (fazer_jogada s p).turno = s.turno ∧
        (fazer_jogada s p).jogo_ativo = false) ∧
    (verificar_tabuleiro (s.tabuleiro.set p s.turno) = .empate →
      (fazer_jogada s p).turno = s.turno ∧
        (fazer_jogada s p).jogo_ativo = false) ∧
    (∀ n, verificar_tabuleiro (s.tabuleiro.set p s.turno) =
        .emAndamento n →
      (fazer_jogada s p).turno = (if s.turno = 'O' then 'X' else 'O') ∧
        (fazer_jogada s p).jogo_ativo = true) ∧
    ((∀ v tr, verificar_tabuleiro s.tabuleiro ≠ .vitoria v tr) →
      ∀ v tr, verificar_tabuleiro (s.tabuleiro.set p s.turno) =
          .vitoria v tr →
        v = s.turno ∧ (fazer_jogada s p).turno = v) := by
  refine ⟨?_, ?_, ?_, ?_⟩
  · intro v tr hres hxo
    rw [fazer_jogada_vitoria_xo s p v tr ha hv hres hxo]
    exact ⟨rfl, rfl⟩
  · intro hres
    rw [fazer_jogada_empate s p ha hv hres]
    exact ⟨rfl, rfl⟩
  · intro n hres
    rw [fazer_jogada_andamento s p n ha hv hres]
    exact ⟨rfl, ha⟩
  · intro hpre v tr hres
    have hp := verificar_jogada_blank s.tabuleiro p hv
    have hvt := vitoria_simbolo_da_jogada s.tabuleiro p s.turno hp hpre
      v tr hres
    refine ⟨hvt, ?_⟩
    rw [fazer_jogada_vitoria_xo s p v tr ha hv hres (by rw [hvt]; exact ht)]
    exact hvt.symm

/-- C10 amended witness: the first move of the fresh game is in progress,
so the turn toggles from 'X' to 'O' and the game stays active. -/
theorem claim10_testemunha :
    (fazer_jogada estado_inicial '5').turno =
      (if estado_inicial.turno = 'O' then 'X' else 'O') ∧
    (fazer_jogada estado_inicial '5').jogo_ativo = true :=
  (claim10_emendada estado_inicial '5' (by decide) (by decide)
    (Or.inl (by decide))).2.2.1 8 (by decide)
